import Mathlib

/-!
Verification development for the Vulfram command/event bridge
(`vulpi-dev/Vulfram`): the FFI gateway tables, result-code space,
two-phase buffer transfer protocol, CBOR wire codec, event union model,
project-root discovery and library-release lifecycle, shallowly embedded
from the TypeScript sources.

Native calls cross an FFI boundary; their observable behaviour (result
code, values written into out-parameters, bytes readable through returned
pointers) is modelled by explicit oracle structures that the host-side
functions consume, exactly mirroring the host-side control flow of the
source.
-/

namespace Vulfram

/-! ## Native call gateway (src/bind/ts/src/ffi/index.ts and part_004)

The `dlopen` symbol tables list each boundary operation with its argument
types and return type. -/

/-- Argument/return types appearing in the `dlopen` symbol tables. -/
inductive FfiType where
  | u32
  | u64
  | usize
  | ptr
deriving DecidableEq

/-- The boundary operations named in the `dlopen` table of
`src/bind/ts/src/ffi/index.ts` (`engine_clear_buffer`, `engine_dispose`,
`engine_download_buffer`, `engine_init`, `engine_receive_queue`,
`engine_receive_events`, `engine_send_queue`, `engine_tick`,
`engine_upload_buffer`, `engine_get_profiling`). -/
inductive GatewayOp where
  | clearBuffer
  | dispose
  | downloadBuffer
  | init
  | receiveQueue
  | receiveEvents
  | sendQueue
  | tick
  | uploadBuffer
  | getProfiling
deriving DecidableEq, Fintype

/-- Argument types of each operation, from the bind/ts `dlopen` table
(part_004's table lists identical signatures for the operations it has). -/
def gatewayArgs : GatewayOp → List FfiType
  | .clearBuffer => [.u64]
  | .dispose => []
  | .downloadBuffer => [.u64, .ptr, .ptr]
  | .init => []
  | .receiveQueue => [.ptr, .ptr]
  | .receiveEvents => [.ptr, .ptr]
  | .sendQueue => [.ptr, .usize]
  | .tick => [.u64, .u32]
  | .uploadBuffer => [.u64, .ptr, .usize]
  | .getProfiling => [.ptr, .ptr]

/-- Return type of each operation, from the `returns` field of the
`dlopen` tables (every entry says `'u32'`). -/
def gatewayRet : GatewayOp → FfiType
  | .clearBuffer => .u32
  | .dispose => .u32
  | .downloadBuffer => .u32
  | .init => .u32
  | .receiveQueue => .u32
  | .receiveEvents => .u32
  | .sendQueue => .u32
  | .tick => .u32
  | .uploadBuffer => .u32
  | .getProfiling => .u32

/-- The operations exposed by the bind/ts gateway, in the order of its
`dlopen` table. -/
def bindGatewayOps : List GatewayOp :=
  [.clearBuffer, .dispose, .downloadBuffer, .init, .receiveQueue,
   .receiveEvents, .sendQueue, .tick, .uploadBuffer, .getProfiling]

/-- The operations exposed by part_004's gateway, in the order of its
`dlopen` table (it has no `engine_receive_events` and no
`engine_get_profiling`). -/
def part004GatewayOps : List GatewayOp :=
  [.init, .dispose, .sendQueue, .receiveQueue, .uploadBuffer,
   .downloadBuffer, .clearBuffer, .tick]

/-! ## Result codes (src/packages/engine/src/enums.ts)

The TypeScript enum gives `Success = 0`, `UnknownError = 1`, then
auto-increments `NotInitialized`, `AlreadyInitialized`, `WrongThread`,
`BufferOverflow` to 2, 3, 4, 5, and pins the reserved subsystem bases
`WinitError = 1000`, `WgpuInstanceError = 2000`,
`CmdInvalidCborError = 3000`. -/

inductive VulframResult where
  | Success
  | UnknownError
  | NotInitialized
  | AlreadyInitialized
  | WrongThread
  | BufferOverflow
  | WinitError
  | WgpuInstanceError
  | CmdInvalidCborError
deriving DecidableEq, Fintype

/-- Numeric value of each enum member (auto-increment resolved). -/
def VulframResult.toCode : VulframResult → Nat
  | .Success => 0
  | .UnknownError => 1
  | .NotInitialized => 2
  | .AlreadyInitialized => 3
  | .WrongThread => 4
  | .BufferOverflow => 5
  | .WinitError => 1000
  | .WgpuInstanceError => 2000
  | .CmdInvalidCborError => 3000

/-- All members of the enum, in declaration order. -/
def allVulframResults : List VulframResult :=
  [.Success, .UnknownError, .NotInitialized, .AlreadyInitialized,
   .WrongThread, .BufferOverflow, .WinitError, .WgpuInstanceError,
   .CmdInvalidCborError]

/-! ## Buffer transfer protocol

Oracles describe what the native core observably does on each call; the
host functions below mirror the TypeScript control flow over them. -/

/-- Observed behaviour of one native call of the bind/ts single-call shape
(`engine_download_buffer(id, ptr(ptrHolder), ptr(sizeHolder))` and the
`engine_receive_queue` / `engine_receive_events` / `engine_get_profiling`
calls): the u32 result code, the values the native code wrote into the two
`BigUint64Array(1)` holders, and the native memory the host may read one
byte at a time through `read.u8(srcPtr, i)`. -/
structure RawNativeRead where
  result : Nat
  ptrVal : Nat
  sizeVal : Nat
  mem : Nat → Nat

/-- Observed behaviour of the two native calls of the part_004 two-phase
shape (`vulframDownloadBuffer` / `vulframReceiveQueue`): phase 1 (null
destination) returns `result1` and writes `size1` into `lengthHolder`;
phase 2 (real destination) returns `result2`, puts byte `fill i` at
offset `i` of the destination buffer, and writes `size2` into
`lengthHolder` (which the host never reads again). -/
structure TwoPhaseNative where
  result1 : Nat
  size1 : Nat
  result2 : Nat
  fill : Nat → Nat
  size2 : Nat

/-- Host side of `engineDownloadBuffer` (ffi/index.ts lines 33-54): one
native call; if `sizeHolder[0]` is zero, or the source pointer is zero,
return an empty buffer with the result code; otherwise allocate
`Number(sizeHolder[0])` bytes and copy them one at a time from the source
pointer. The native behaviour may depend on the requested handle `id`. -/
def engineDownloadBuffer (o : Nat → RawNativeRead) (id : Nat) : List Nat × Nat :=
  let n := o id
  if n.sizeVal = 0 then ([], n.result)
  else if n.ptrVal = 0 then ([], n.result)
  else ((List.range n.sizeVal).map n.mem, n.result)

/-- The byte offsets `engineDownloadBuffer` passes to `read.u8`: the copy
loop runs `i` from `0` to `buffer.length - 1` and only when both holders
are nonzero. -/
def engineDownloadBufferReads (o : Nat → RawNativeRead) (id : Nat) : List Nat :=
  let n := o id
  if n.sizeVal = 0 then []
  else if n.ptrVal = 0 then []
  else List.range n.sizeVal

/-- Host side of `engineReceiveQueue` (ffi/index.ts lines 60-80); same
shape as `engineDownloadBuffer` without a handle argument. -/
def engineReceiveQueue (n : RawNativeRead) : List Nat × Nat :=
  if n.sizeVal = 0 then ([], n.result)
  else if n.ptrVal = 0 then ([], n.result)
  else ((List.range n.sizeVal).map n.mem, n.result)

/-- The byte offsets `engineReceiveQueue` passes to `read.u8`. -/
def engineReceiveQueueReads (n : RawNativeRead) : List Nat :=
  if n.sizeVal = 0 then []
  else if n.ptrVal = 0 then []
  else List.range n.sizeVal

/-- Host side of `engineReceiveEvents` (ffi/index.ts lines 82-102). -/
def engineReceiveEvents (n : RawNativeRead) : List Nat × Nat :=
  if n.sizeVal = 0 then ([], n.result)
  else if n.ptrVal = 0 then ([], n.result)
  else ((List.range n.sizeVal).map n.mem, n.result)

/-- The byte offsets `engineReceiveEvents` passes to `read.u8`. -/
def engineReceiveEventsReads (n : RawNativeRead) : List Nat :=
  if n.sizeVal = 0 then []
  else if n.ptrVal = 0 then []
  else List.range n.sizeVal

/-- Host side of `engineGetProfiling` (ffi/index.ts lines 116-136). -/
def engineGetProfiling (n : RawNativeRead) : List Nat × Nat :=
  if n.sizeVal = 0 then ([], n.result)
  else if n.ptrVal = 0 then ([], n.result)
  else ((List.range n.sizeVal).map n.mem, n.result)

/-- The byte offsets `engineGetProfiling` passes to `read.u8`. -/
def engineGetProfilingReads (n : RawNativeRead) : List Nat :=
  if n.sizeVal = 0 then []
  else if n.ptrVal = 0 then []
  else List.range n.sizeVal

/-- How many native calls `engineDownloadBuffer` makes: exactly one on
every path — the single `engine_download_buffer(id, ptr(ptrHolder),
ptr(sizeHolder))` invocation; there is no separate fill call, the host
copies through the returned pointer itself. -/
def engineDownloadBufferCalls (_o : Nat → RawNativeRead) (_id : Nat) : Nat := 1

/-- How many native calls `engineReceiveQueue` makes: exactly one on
every path. -/
def engineReceiveQueueCalls (_n : RawNativeRead) : Nat := 1

/-- How many native calls `engineReceiveEvents` makes: exactly one on
every path. -/
def engineReceiveEventsCalls (_n : RawNativeRead) : Nat := 1

/-- How many native calls `engineGetProfiling` makes: exactly one on
every path. -/
def engineGetProfilingCalls (_n : RawNativeRead) : Nat := 1

/-- Host side of `vulframDownloadBuffer` (part_004 lines 169-184): phase 1
with null destination; on nonzero result or zero reported size return an
empty buffer with that result code; otherwise allocate exactly
`Number(lengthHolder[0])` bytes, run phase 2 into them, and return the
buffer unless phase 2 reports a nonzero result. The host buffer keeps
exactly the first `size1` bytes the native fill produces. -/
def vulframDownloadBuffer (o : Nat → TwoPhaseNative) (id : Nat) : List Nat × Nat :=
  let n := o id
  if n.result1 ≠ 0 ∨ n.size1 = 0 then ([], n.result1)
  else
    let buffer := (List.range n.size1).map n.fill
    if n.result2 ≠ 0 then ([], n.result2)
    else (buffer, n.result2)

/-- How many native calls `vulframDownloadBuffer` performs: one when the
phase-1 guard returns early, two otherwise (the fill phase happened). -/
def vulframDownloadBufferCalls (o : Nat → TwoPhaseNative) (id : Nat) : Nat :=
  let n := o id
  if n.result1 ≠ 0 ∨ n.size1 = 0 then 1 else 2

/-- The bytes `vulframReceiveQueue` (part_004 lines 138-154) hands to
`decode`, together with the result code it pairs with them; this mirrors
everything the function does before the `decode(buffer)` call. -/
def vulframReceiveQueueBytes (n : TwoPhaseNative) : List Nat × Nat :=
  if n.result1 ≠ 0 ∨ n.size1 = 0 then ([], n.result1)
  else
    let buffer := (List.range n.size1).map n.fill
    if n.result2 ≠ 0 then ([], n.result2)
    else (buffer, n.result2)

/-- How many native calls `vulframReceiveQueue` performs. -/
def vulframReceiveQueueCalls (n : TwoPhaseNative) : Nat :=
  if n.result1 ≠ 0 ∨ n.size1 = 0 then 1 else 2

/-! ## Wire codec

`vulframSendQueue` / `vulframReceiveQueue` serialize batches with the
`cbor2` library: JavaScript arrays become CBOR arrays (major type 4),
objects become maps with text keys (major type 5) in insertion order,
strings become text (major type 3, UTF-8), integral numbers become
ints (major types 0/1) in preferred (shortest-head) form, booleans and
null become the major-7 simple values, and doubles are carried as
major-7/27 items (modelled here by their raw 64-bit image, keeping
IEEE-754 out of the embedding). The decoder parses any head form,
bounds-checks every embedded length against the remaining bytes, and
rejects malformed input by returning `none`. -/

/-- CBOR data items exchanged by the codec. `nint n` denotes the negative
integer `-1 - n`; `text` carries the UTF-8 bytes of a string; `float`
carries the 64-bit IEEE-754 image of a double as an opaque number below
`2^64`. -/
inductive CborValue where
  | uint (n : Nat)
  | nint (n : Nat)
  | bytes (bs : List Nat)
  | text (ts : List Nat)
  | arr (items : List CborValue)
  | map (pairs : List (CborValue × CborValue))
  | bool (b : Bool)
  | null
  | undefined
  | float (bits : Nat)

/-- Big-endian 8-byte image of a 64-bit number. -/
def be8 (n : Nat) : List Nat :=
  [n / 72057594037927936 % 256, n / 281474976710656 % 256,
   n / 1099511627776 % 256, n / 4294967296 % 256, n / 16777216 % 256,
   n / 65536 % 256, n / 256 % 256, n % 256]

/-- Preferred-form CBOR head for major type `m` and argument `n`: the
shortest of the immediate, 1-, 2-, 4- and 8-byte argument encodings. -/
def cborHead (m n : Nat) : List Nat :=
  if n < 24 then [32 * m + n]
  else if n < 256 then [32 * m + 24, n]
  else if n < 65536 then [32 * m + 25, n / 256, n % 256]
  else if n < 4294967296 then
    [32 * m + 26, n / 16777216 % 256, n / 65536 % 256, n / 256 % 256, n % 256]
  else (32 * m + 27) :: be8 n

mutual

/-- Encode one CBOR item in the form `cbor2`'s encoder produces. -/
def encodeItem : CborValue → List Nat
  | .uint n => cborHead 0 n
  | .nint n => cborHead 1 n
  | .bytes bs => cborHead 2 bs.length ++ bs
  | .text ts => cborHead 3 ts.length ++ ts
  | .arr items => cborHead 4 items.length ++ encodeList items
  | .map pairs => cborHead 5 pairs.length ++ encodePairs pairs
  | .bool false => [244]
  | .bool true => [245]
  | .null => [246]
  | .undefined => [247]
  | .float bits => 251 :: be8 bits

/-- Encode the elements of a CBOR array in order. -/
def encodeList : List CborValue → List Nat
  | [] => []
  | v :: vs => encodeItem v ++ encodeList vs

/-- Encode the key/value entries of a CBOR map in order. -/
def encodePairs : List (CborValue × CborValue) → List Nat
  | [] => []
  | (k, v) :: ps => encodeItem k ++ encodeItem v ++ encodePairs ps

end

/-- Parse a CBOR head: returns the major type, the additional-information
value, the decoded argument and the remaining bytes, or `none` on
truncated or reserved (28-31) forms. -/
def decodeHead : List Nat → Option (Nat × Nat × Nat × List Nat)
  | [] => none
  | b :: rest =>
    let m := b / 32
    let ai := b % 32
    if ai < 24 then some (m, ai, ai, rest)
    else if ai = 24 then
      match rest with
      | b1 :: r => some (m, 24, b1, r)
      | [] => none
    else if ai = 25 then
      match rest with
      | b1 :: b2 :: r => some (m, 25, b1 * 256 + b2, r)
      | _ => none
    else if ai = 26 then
      match rest with
      | b1 :: b2 :: b3 :: b4 :: r =>
        some (m, 26, ((b1 * 256 + b2) * 256 + b3) * 256 + b4, r)
      | _ => none
    else if ai = 27 then
      match rest with
      | b1 :: b2 :: b3 :: b4 :: b5 :: b6 :: b7 :: b8 :: r =>
        some (m, 27,
          ((((((b1 * 256 + b2) * 256 + b3) * 256 + b4) * 256 + b5) * 256
            + b6) * 256 + b7) * 256 + b8, r)
      | _ => none
    else none

mutual

/-- Decode one CBOR item from a byte list. `fuel` bounds the recursion
(the entry point supplies more than any input can use); every embedded
count is bounds-checked against the remaining input before being trusted,
and any malformed head, truncated payload, unsupported tag (major 6) or
reserved simple value yields `none`. -/
def decodeItem : Nat → List Nat → Option (CborValue × List Nat)
  | 0, _ => none
  | fuel + 1, bytes =>
    match decodeHead bytes with
    | none => none
    | some (m, ai, n, r) =>
      if m = 0 then some (.uint n, r)
      else if m = 1 then some (.nint n, r)
      else if m = 2 then
        if n ≤ r.length then some (.bytes (r.take n), r.drop n) else none
      else if m = 3 then
        if n ≤ r.length then some (.text (r.take n), r.drop n) else none
      else if m = 4 then
        match decodeList fuel n r with
        | some (items, r2) => some (.arr items, r2)
        | none => none
      else if m = 5 then
        match decodePairs fuel n r with
        | some (ps, r2) => some (.map ps, r2)
        | none => none
      else if m = 6 then none
      else if ai = 20 then some (.bool false, r)
      else if ai = 21 then some (.bool true, r)
      else if ai = 22 then some (.null, r)
      else if ai = 23 then some (.undefined, r)
      else if ai = 27 then some (.float n, r)
      else none

/-- Decode `k` consecutive CBOR items (the elements of an array). -/
def decodeList : Nat → Nat → List Nat → Option (List CborValue × List Nat)
  | _, 0, bytes => some ([], bytes)
  | 0, _ + 1, _ => none
  | fuel + 1, k + 1, bytes =>
    match decodeItem fuel bytes with
    | none => none
    | some (v, r) =>
      match decodeList fuel k r with
      | none => none
      | some (vs, r2) => some (v :: vs, r2)

/-- Decode `k` consecutive key/value pairs (the entries of a map). -/
def decodePairs :
    Nat → Nat → List Nat → Option (List (CborValue × CborValue) × List Nat)
  | _, 0, bytes => some ([], bytes)
  | 0, _ + 1, _ => none
  | fuel + 1, k + 1, bytes =>
    match decodeItem fuel bytes with
    | none => none
    | some (k1, r) =>
      match decodeItem fuel r with
      | none => none
      | some (v1, r2) =>
        match decodePairs fuel k r2 with
        | none => none
        | some (ps, r3) => some ((k1, v1) :: ps, r3)

end

/-- Entry point modelling `cbor2`'s `decode(buffer)`: decode one item and
reject both malformed input and trailing garbage. The fuel budget
`2 * length + 2` exceeds what decoding any encoder output can use (each
recursion layer spends at least one input byte). -/
def cborDecodeOne (bytes : List Nat) : Option CborValue :=
  match decodeItem (2 * bytes.length + 2) bytes with
  | some (v, []) => some v
  | _ => none

/-- The head form (additional-information value) the preferred encoding
of argument `n` uses. -/
def aiOf (n : Nat) : Nat :=
  if n < 24 then n
  else if n < 256 then 24
  else if n < 65536 then 25
  else if n < 4294967296 then 26
  else 27

mutual

/-- Fuel sufficient for `decodeItem` on this item's encoding. -/
def needItem : CborValue → Nat
  | .arr items => needList items + 1
  | .map pairs => needPairs pairs + 1
  | _ => 1

/-- Fuel sufficient for `decodeList` on these elements' encodings. -/
def needList : List CborValue → Nat
  | [] => 0
  | v :: vs => max (needItem v) (needList vs) + 1

/-- Fuel sufficient for `decodePairs` on these entries' encodings. -/
def needPairs : List (CborValue × CborValue) → Nat
  | [] => 0
  | (k, v) :: ps => max (needItem k) (max (needItem v) (needPairs ps)) + 1

end

mutual

/-- Well-formedness of an item as `cbor2` would produce it: every integer,
float image and length fits in 64 bits. -/
def cborWf : CborValue → Bool
  | .uint n => decide (n < 18446744073709551616)
  | .nint n => decide (n < 18446744073709551616)
  | .bytes bs => decide (bs.length < 18446744073709551616)
  | .text ts => decide (ts.length < 18446744073709551616)
  | .arr items =>
    decide (items.length < 18446744073709551616) && cborWfList items
  | .map pairs =>
    decide (pairs.length < 18446744073709551616) && cborWfPairs pairs
  | .bool _ => true
  | .null => true
  | .undefined => true
  | .float bits => decide (bits < 18446744073709551616)

/-- Well-formedness of every element of an array. -/
def cborWfList : List CborValue → Bool
  | [] => true
  | v :: vs => cborWf v && cborWfList vs

/-- Well-formedness of every entry of a map. -/
def cborWfPairs : List (CborValue × CborValue) → Bool
  | [] => true
  | (k, v) :: ps => cborWf k && cborWf v && cborWfPairs ps

end

/-! ## Batches on the wire

`vulframSendQueue(batch)` runs `encode(batch)` on an `EngineBatchCmds`
value — a JavaScript array of envelopes `EngineCmd & { id: number }` —
and `vulframReceiveQueue` runs `decode(buffer)` on the received bytes.
The cmds module itself is not under src/ (only part_001's type aliases
are), so the envelope value shape is modelled from the spec. -/

/-- UTF-8 bytes of the string `id`. -/
def idKeyBytes : List Nat := [105, 100]

/-- Modelled from the spec: the envelope `EngineCmd & { id: number }` (the
cmds module carrying the command variants is not under src/) — "a tagged
request (one variant of a closed command taxonomy) plus a numeric
identifier". As a CBOR value: the map of the variant's own fields followed
by the `id` entry. -/
def mkEnvelope (fields : List (CborValue × CborValue)) (id : Nat) : CborValue :=
  .map (fields ++ [(.text idKeyBytes, .uint id)])

/-- Read an envelope back: split the trailing `id` entry off the map. -/
def envelopeFields (v : CborValue) :
    Option (List (CborValue × CborValue) × Nat) :=
  match v with
  | .map pairs =>
    match pairs.getLast? with
    | some (.text k, .uint id) =>
      if k = idKeyBytes then some (pairs.dropLast, id) else none
    | _ => none
  | _ => none

/-- Bytes `vulframSendQueue` produces for a batch of envelopes:
`encode(batch)` with the batch as a CBOR array. The same encoding carries
response batches (`CommandResponse & { id: number }`). -/
def encodeEnvBatch (batch : List (List (CborValue × CborValue) × Nat)) :
    List Nat :=
  encodeItem (.arr (batch.map (fun e => mkEnvelope e.1 e.2)))

/-- Read every envelope of a decoded batch array. -/
def envelopesOf :
    List CborValue → Option (List (List (CborValue × CborValue) × Nat))
  | [] => some []
  | v :: vs =>
    match envelopeFields v with
    | none => none
    | some e =>
      match envelopesOf vs with
      | none => none
      | some es => some (e :: es)

/-- Decode a received batch of envelopes: `decode(bytes)` followed by
reading each envelope of the decoded array. -/
def decodeEnvBatch (bytes : List Nat) :
    Option (List (List (CborValue × CborValue) × Nat)) :=
  match cborDecodeOne bytes with
  | some (.arr items) => envelopesOf items
  | _ => none

/-- The six outer event categories of
src/packages/engine/src/events.ts (`EngineEvent`, lines 624-630). -/
inductive EventTag where
  | window
  | pointer
  | keyboard
  | gamepad
  | joystick
  | system
deriving DecidableEq, Fintype

/-- UTF-8 bytes of each category's `type` discriminant string. -/
def eventTagBytes : EventTag → List Nat
  | .window => [119, 105, 110, 100, 111, 119]
  | .pointer => [112, 111, 105, 110, 116, 101, 114]
  | .keyboard => [107, 101, 121, 98, 111, 97, 114, 100]
  | .gamepad => [103, 97, 109, 101, 112, 97, 100]
  | .joystick => [106, 111, 121, 115, 116, 105, 99, 107]
  | .system => [115, 121, 115, 116, 101, 109]

/-- Recognize a category discriminant string. -/
def tagOfBytes (bs : List Nat) : Option EventTag :=
  if bs = eventTagBytes .window then some .window
  else if bs = eventTagBytes .pointer then some .pointer
  else if bs = eventTagBytes .keyboard then some .keyboard
  else if bs = eventTagBytes .gamepad then some .gamepad
  else if bs = eventTagBytes .joystick then some .joystick
  else if bs = eventTagBytes .system then some .system
  else none

/-- UTF-8 bytes of the string `type`. -/
def typeKeyBytes : List Nat := [116, 121, 112, 101]

/-- UTF-8 bytes of the string `content`. -/
def contentKeyBytes : List Nat := [99, 111, 110, 116, 101, 110, 116]

/-- An `EngineEvent` value `{ type, content }` as the CBOR map `cbor2`
makes of it (keys in declaration order). -/
def mkTaggedEvent (t : EventTag) (content : CborValue) : CborValue :=
  .map [(.text typeKeyBytes, .text (eventTagBytes t)),
        (.text contentKeyBytes, content)]

/-- Read a tagged event back from its CBOR map. -/
def taggedEventFields (v : CborValue) : Option (EventTag × CborValue) :=
  match v with
  | .map [(.text k1, .text tv), (.text k2, c)] =>
    if k1 = typeKeyBytes ∧ k2 = contentKeyBytes then
      match tagOfBytes tv with
      | some t => some (t, c)
      | none => none
    else none
  | _ => none

/-- Bytes encoding a batch of engine events (`EngineBatchEvents`). -/
def encodeEventBatch (batch : List (EventTag × CborValue)) : List Nat :=
  encodeItem (.arr (batch.map (fun e => mkTaggedEvent e.1 e.2)))

/-- Read every tagged event of a decoded batch array. -/
def taggedEventsOf : List CborValue → Option (List (EventTag × CborValue))
  | [] => some []
  | v :: vs =>
    match taggedEventFields v with
    | none => none
    | some e =>
      match taggedEventsOf vs with
      | none => none
      | some es => some (e :: es)

/-- Decode a received event batch. -/
def decodeEventBatch (bytes : List Nat) :
    Option (List (EventTag × CborValue)) :=
  match cborDecodeOne bytes with
  | some (.arr items) => taggedEventsOf items
  | _ => none

/-- Full host side of `vulframReceiveQueue` (part_004 lines 138-154)
including the `decode(buffer)` call, which is not wrapped in any
`try`/`catch`: when `decode` throws on malformed bytes the exception
escapes the function, modelled by `Except.error ()`. A successful call
returns the decoded CBOR item (the `as EngineBatchEvents` cast has no
runtime effect) with the result code. -/
def vulframReceiveQueue (n : TwoPhaseNative) :
    Except Unit (CborValue × Nat) :=
  if n.result1 ≠ 0 ∨ n.size1 = 0 then .ok (.arr [], n.result1)
  else
    let buffer := (List.range n.size1).map n.fill
    if n.result2 ≠ 0 then .ok (.arr [], n.result2)
    else
      match cborDecodeOne buffer with
      | some v => .ok (v, n.result2)
      | none => .error ()

/-! ## Event union model (src/packages/engine/src/events.ts)

Scalar conventions of the embedding: a TypeScript `number` is a double,
modelled by `JsNumber` carrying its 64-bit IEEE-754 image as an opaque
natural; a `string` is modelled by its UTF-8 byte list `JsString`. -/

/-- A JavaScript `number`, by its 64-bit IEEE-754 image. -/
structure JsNumber where
  bits : Nat
deriving DecidableEq

/-- A JavaScript `string`, by its UTF-8 bytes. -/
def JsString : Type := List Nat

/-- `ElementState = 'released' | 'pressed'`. -/
inductive ElementState where
  | released
  | pressed
deriving DecidableEq

/-- `TouchPhase = 'started' | 'moved' | 'ended' | 'cancelled'`. -/
inductive TouchPhase where
  | started
  | moved
  | ended
  | cancelled
deriving DecidableEq

/-- `ModifiersState`. -/
structure ModifiersState where
  shift : Bool
  ctrl : Bool
  alt : Bool
  meta : Bool
deriving DecidableEq

/-- `Vector2 = [number, number]`. -/
def Vector2 : Type := JsNumber × JsNumber

/-- `IVector2 = [number, number]`. -/
def IVector2 : Type := JsNumber × JsNumber

/-- `WindowEvent`: the closed sum of window event kinds (events.ts lines
25-108), each constructor holding the kind's `data` fields. -/
inductive WindowEvent where
  | created (windowId : JsNumber)
  | resized (windowId width height : JsNumber)
  | moved (windowId : JsNumber) (position : IVector2)
  | closeRequested (windowId : JsNumber)
  | destroyed (windowId : JsNumber)
  | focused (windowId : JsNumber) (focused : Bool)
  | scaleFactorChanged (windowId scaleFactor newWidth newHeight : JsNumber)
  | occluded (windowId : JsNumber) (occluded : Bool)
  | redrawRequested (windowId : JsNumber)
  | fileDropped (windowId : JsNumber) (path : JsString)
  | fileHovered (windowId : JsNumber) (path : JsString)
  | fileHoveredCancelled (windowId : JsNumber)
  | themeChanged (windowId : JsNumber) (darkMode : Bool)

/-- `MouseButton` (string union plus `{ other: number }`). -/
inductive MouseButton where
  | left
  | right
  | middle
  | back
  | forward
  | other (n : JsNumber)

/-- `PointerType = 'mouse' | 'touch' | 'pen'`. -/
inductive PointerType where
  | mouse
  | touch
  | pen
deriving DecidableEq

/-- `ScrollDelta`. -/
inductive ScrollDelta where
  | line (value : Vector2)
  | pixel (value : Vector2)

/-- `PointerEvent`: the closed sum of pointer event kinds (events.ts lines
129-231). -/
inductive PointerEvent where
  | moved (windowId : JsNumber) (pointerType : PointerType)
      (pointerId : JsNumber) (position : Vector2)
  | entered (windowId : JsNumber) (pointerType : PointerType)
      (pointerId : JsNumber)
  | left (windowId : JsNumber) (pointerType : PointerType)
      (pointerId : JsNumber)
  | button (windowId : JsNumber) (pointerType : PointerType)
      (pointerId : JsNumber) (button : MouseButton) (state : ElementState)
      (position : Vector2)
  | scroll (windowId : JsNumber) (delta : ScrollDelta) (phase : TouchPhase)
  | touch (windowId pointerId : JsNumber) (phase : TouchPhase)
      (position : Vector2) (pressure : Option JsNumber)
  | pinchGesture (windowId delta : JsNumber) (phase : TouchPhase)
  | panGesture (windowId : JsNumber) (delta : Vector2) (phase : TouchPhase)
  | rotationGesture (windowId delta : JsNumber) (phase : TouchPhase)
  | doubleTapGesture (windowId : JsNumber)

/-- `KeyLocation = 'standard' | 'left' | 'right' | 'numpad'`. -/
inductive KeyLocation where
  | standard
  | left
  | right
  | numpad
deriving DecidableEq

/-- `KeyCode` (events.ts lines 239-399): the closed union of key-code
string literals, abbreviated here by the literal's UTF-8 bytes (its
enumeration of cases carries no weight in any claim). -/
def KeyCode : Type := JsString

/-- `KeyboardEvent`: the closed sum of keyboard event kinds (events.ts
lines 401-455). -/
inductive KeyboardEvent where
  | input (windowId : JsNumber) (keyCode : KeyCode) (state : ElementState)
      (location : KeyLocation) («repeat» : Bool) (text : Option JsString)
      (modifiers : ModifiersState)
  | modifiersChanged (windowId : JsNumber) (modifiers : ModifiersState)
  | imeEnabled (windowId : JsNumber)
  | imePreedit (windowId : JsNumber) (text : JsString)
      (cursorRange : Option (JsNumber × JsNumber))
  | imeCommit (windowId : JsNumber) (text : JsString)
  | imeDisabled (windowId : JsNumber)

/-- `GamepadButton` (string union plus `{ other: number }`). -/
inductive GamepadButton where
  | south
  | east
  | west
  | north
  | leftBumper
  | rightBumper
  | leftTrigger
  | rightTrigger
  | select
  | start
  | mode
  | leftStick
  | rightStick
  | dpadUp
  | dpadDown
  | dpadLeft
  | dpadRight
  | other (n : JsNumber)

/-- `GamepadAxis` (string union plus `{ other: number }`). -/
inductive GamepadAxis where
  | leftStickX
  | leftStickY
  | rightStickX
  | rightStickY
  | leftTrigger
  | rightTrigger
  | other (n : JsNumber)

/-- `GamepadEvent`: the closed sum of gamepad event kinds (events.ts lines
496-532). -/
inductive GamepadEvent where
  | connected (gamepadId : JsNumber) (name : JsString)
  | disconnected (gamepadId : JsNumber)
  | button (gamepadId : JsNumber) (button : GamepadButton)
      (state : ElementState) (value : JsNumber)
  | axis (gamepadId : JsNumber) (axis : GamepadAxis) (value : JsNumber)

/-- `JoystickHatPosition`. -/
inductive JoystickHatPosition where
  | centered
  | up
  | rightUp
  | right
  | rightDown
  | down
  | leftDown
  | left
  | leftUp
deriving DecidableEq

/-- `JoystickEvent`: the closed sum of joystick event kinds (events.ts
lines 548-596). -/
inductive JoystickEvent where
  | connected (joystickId : JsNumber) (name : JsString)
      (axesCount buttonsCount hatsCount : JsNumber)
  | disconnected (joystickId : JsNumber)
  | button (joystickId buttonIndex : JsNumber) (state : ElementState)
  | axis (joystickId axisIndex value : JsNumber)
  | hat (joystickId hatIndex : JsNumber) (position : JoystickHatPosition)

/-- `SystemEvent`: the closed sum of system event kinds (events.ts lines
600-620). -/
inductive SystemEvent where
  | resumed
  | suspended
  | memoryWarning
  | exiting
deriving DecidableEq

/-- `EngineEvent` of src/packages/engine/src/events.ts (lines 624-630):
the tagged union over the six outer categories. -/
inductive EngineEvent where
  | window (content : WindowEvent)
  | pointer (content : PointerEvent)
  | keyboard (content : KeyboardEvent)
  | gamepad (content : GamepadEvent)
  | joystick (content : JoystickEvent)
  | system (content : SystemEvent)

/-- The outer `type` tag of an `EngineEvent` value. -/
def EngineEvent.tag : EngineEvent → EventTag
  | .window _ => .window
  | .pointer _ => .pointer
  | .keyboard _ => .keyboard
  | .gamepad _ => .gamepad
  | .joystick _ => .joystick
  | .system _ => .system

namespace Cmds

/-! The other `EngineEvent` definition, in part_001 (the cmds module's
index, lines 34-41). Its content types come from the bind events module:
`PointerEvent` (src/bind/ts/src/events/pointer.ts), `KeyboardEvent`
(src/bind/ts/src/events/keyboard.ts), `GamepadEvent` (part_000), and
`WindowEvent` / `SystemEvent`, whose files are not under src/. -/

/-- Bind-side `MouseButton` numeric enum (pointer.ts lines 6-13). -/
inductive MouseButton where
  | left
  | right
  | middle
  | back
  | forward

/-- Bind-side `PointerType` numeric enum (pointer.ts lines 16-20). -/
inductive PointerType where
  | mouse
  | touch
  | pen

/-- Bind-side `ScrollDelta` (pointer.ts lines 23-25). -/
inductive ScrollDelta where
  | line (value : Vector2)
  | pixel (value : Vector2)

/-- Bind-side `PointerEvent` (pointer.ts lines 153-163): same closed sum
of ten kinds, with `on-…` discriminants and numeric enums. -/
inductive PointerEvent where
  | moved (windowId : JsNumber) (pointerType : PointerType)
      (pointerId : JsNumber) (position : Vector2)
  | entered (windowId : JsNumber) (pointerType : PointerType)
      (pointerId : JsNumber)
  | left (windowId : JsNumber) (pointerType : PointerType)
      (pointerId : JsNumber)
  | button (windowId : JsNumber) (pointerType : PointerType)
      (pointerId : JsNumber) (button : MouseButton) (state : ElementState)
      (position : Vector2)
  | scroll (windowId : JsNumber) (delta : ScrollDelta) (phase : TouchPhase)
  | touch (windowId pointerId : JsNumber) (phase : TouchPhase)
      (position : Vector2) (pressure : Option JsNumber)
  | pinchGesture (windowId delta : JsNumber) (phase : TouchPhase)
  | panGesture (windowId : JsNumber) (delta : Vector2) (phase : TouchPhase)
  | rotationGesture (windowId delta : JsNumber) (phase : TouchPhase)
  | doubleTapGesture (windowId : JsNumber)

/-- Bind-side `KeyLocation` numeric enum (keyboard.ts lines 6-11). -/
inductive KeyLocation where
  | standard
  | left
  | right
  | numpad

/-- Bind-side `KeyCode` (keyboard.ts lines 14-176): the closed numeric
enum of key codes, abbreviated here by the numeric discriminant (its
enumeration of cases carries no weight in any claim). -/
structure KeyCode where
  code : Nat

/-- Bind-side `KeyboardEvent` (keyboard.ts lines 244-250). -/
inductive KeyboardEvent where
  | input (windowId : JsNumber) (keyCode : KeyCode) (state : ElementState)
      (location : KeyLocation) («repeat» : Bool) (text : Option JsString)
      (modifiers : ModifiersState)
  | modifiersChanged (windowId : JsNumber) (modifiers : ModifiersState)
  | imeEnabled (windowId : JsNumber)
  | imePreedit (windowId : JsNumber) (text : JsString)
      (cursorRange : Option (JsNumber × JsNumber))
  | imeCommit (windowId : JsNumber) (text : JsString)
  | imeDisabled (windowId : JsNumber)

/-- Bind-side `GamepadButton` numeric enum (part_000 lines 6-30). -/
inductive GamepadButton where
  | south
  | east
  | west
  | north
  | leftBumper
  | rightBumper
  | leftTrigger
  | rightTrigger
  | select
  | start
  | mode
  | leftStick
  | rightStick
  | dpadUp
  | dpadDown
  | dpadLeft
  | dpadRight

/-- Bind-side `GamepadAxis` numeric enum (part_000 lines 33-41). -/
inductive GamepadAxis where
  | leftStickX
  | leftStickY
  | rightStickX
  | rightStickY
  | leftTrigger
  | rightTrigger

/-- Bind-side `GamepadEvent` (part_000 lines 105-109). -/
inductive GamepadEvent where
  | connected (gamepadId : JsNumber) (name : JsString)
  | disconnected (gamepadId : JsNumber)
  | button (gamepadId : JsNumber) (button : GamepadButton)
      (state : ElementState) (value : JsNumber)
  | axis (gamepadId : JsNumber) (axis : GamepadAxis) (value : JsNumber)

/-- Modelled from the spec: the bind events module's `WindowEvent` (its
file is not under src/); §2/§4.4 make the window category a closed sum of
window event kinds, of which §8 names `resized`. -/
inductive WindowEvent where
  | resized (windowId width height : JsNumber)

/-- Modelled from the spec: the bind events module's `SystemEvent` (its
file is not under src/); §4.4 makes the system category a closed sum of
system event kinds, such as being resumed. -/
inductive SystemEvent where
  | resumed

/-- `EngineEvent` of part_001 (lines 34-41): a tagged union over five
categories — `window`, `pointer`, `keyboard`, `gamepad`, `system`; it has
no `joystick` member. -/
inductive EngineEvent where
  | window (content : WindowEvent)
  | pointer (content : PointerEvent)
  | keyboard (content : KeyboardEvent)
  | gamepad (content : GamepadEvent)
  | system (content : SystemEvent)

/-- The outer `type` tag of a part_001 `EngineEvent` value, as one of the
six spec categories. -/
def EngineEvent.tag : EngineEvent → EventTag
  | .window _ => .window
  | .pointer _ => .pointer
  | .keyboard _ => .keyboard
  | .gamepad _ => .gamepad
  | .system _ => .system

end Cmds

/-! ## Project-root discovery (part_003 lines 7-23)

`findProjectRoot` walks `dirname` upward from a starting directory until
a directory holds `package.json` or `dirname` reaches its fixed point.
The filesystem probe `existsSync(join(dir, 'package.json'))` and the
`fileURLToPath` conversion are external effects, passed as oracles;
`path.posix.dirname` is embedded faithfully. The `while (true)` loop is
embedded with an explicit step budget (`fuel`): `none` means the budget
ran out, so termination of the source loop is exactly the existence of a
sufficient finite budget. -/

/-- The scan of Node's `path.posix.dirname`: the loop walks indices
`i = length-1, …, 1` from the right (here: the characters at indices 1
and up, reversed), `matched` records whether a non-slash has been seen,
and the result is the index of the first slash that follows (rightward)
a non-slash character. -/
def dirnameScan : List Char → Nat → Bool → Option Nat
  | [], _, _ => none
  | c :: cs, i, matched =>
    if c = '/' then
      if matched then dirnameScan cs (i - 1) matched else some i
    else dirnameScan cs (i - 1) false

/-- Node's `path.posix.dirname` over the path's characters: empty path
gives `.`; otherwise cut at the scan index (with the `//` special case),
or fall back to `/` or `.` according to whether the path is rooted. -/
def posixDirname (p : List Char) : List Char :=
  if p.isEmpty then ['.']
  else
    let hasRoot := p.head? = some '/'
    match dirnameScan ((p.drop 1).reverse) (p.length - 1) true with
    | none => if hasRoot then ['/'] else ['.']
    | some e => if hasRoot ∧ e = 1 then ['/', '/'] else p.take e

/-- Whether the argument matches `/^file:/i`. -/
def isFileUrl : List Char → Bool
  | c1 :: c2 :: c3 :: c4 :: c5 :: _ =>
    (c1 == 'f' || c1 == 'F') && (c2 == 'i' || c2 == 'I') &&
    (c3 == 'l' || c3 == 'L') && (c4 == 'e' || c4 == 'E') && c5 == ':'
  | _ => false

/-- The `while (true)` loop of `findProjectRoot` with a step budget:
return `dir` once it holds a `package.json` or is `dirname`'s fixed
point; otherwise continue from the parent. -/
def findProjectRootFuel (hasPkg : List Char → Bool) :
    Nat → List Char → Option (List Char)
  | 0, _ => none
  | fuel + 1, dir =>
    if hasPkg dir then some dir
    else
      let parent := posixDirname dir
      if parent = dir then some dir
      else findProjectRootFuel hasPkg fuel parent

/-- `findProjectRoot(fromDir)`: convert a `file:` URL through
`fileURLToPath` (oracle `toPath`), then run the loop; `hasPkg dir` is the
`existsSync(join(dir, 'package.json'))` probe. -/
def findProjectRoot (hasPkg : List Char → Bool)
    (toPath : List Char → List Char) (fromDir : List Char) (fuel : Nat) :
    Option (List Char) :=
  let dir := if isFileUrl fromDir then toPath fromDir else fromDir
  findProjectRootFuel hasPkg fuel dir

/-- Termination measure for the `dirname` walk: `dirname` output is
always strictly smaller under this measure, except at fixed points. -/
def dirMeasure (p : List Char) : Nat :=
  if p = [] then 4 else 2 * p.length + (if p = ['.'] then 0 else 1)

/-! ## Library release lifecycle (ffi/index.ts lines 16-18, part_004
lines 118-120)

Both gateways register the `dlopen` handle's `close` with
`process.once('beforeExit', …)` / `process.on('beforeExit', …)`. Per
Node/Bun process semantics, `beforeExit` listeners run only when the
event loop drains normally — not on `process.exit()`, not on a fatal
error or uncaught exception that aborts the process, and not on a
terminating signal. -/

/-- The ways the host process can terminate. -/
inductive ExitMode where
  | loopDrained
  | explicitExit
  | fatalError
  | killedBySignal
deriving DecidableEq, Fintype

/-- Whether the runtime emits `beforeExit` in that exit mode. -/
def beforeExitFires : ExitMode → Bool
  | .loopDrained => true
  | .explicitExit => false
  | .fatalError => false
  | .killedBySignal => false

/-- Whether the registered `close()` of the loaded native library runs in
that exit mode: exactly when its `beforeExit` registration fires. -/
def dlcloseRuns (m : ExitMode) : Bool := beforeExitFires m

/-! ## Theorems -/

/-- C5: the result-code enum assigns exactly the reserved values — 0
success, 1 unknown error, 2 not initialized, 3 already initialized, 4
wrong thread, 5 buffer overflow, and the subsystem bases 1000 (windowing),
2000 (graphics backend), 3000 (command decoding) — and no two members
share a value, so the numeric value alone identifies the origin. -/
theorem resultCodeSpace :
    VulframResult.toCode .Success = 0 ∧
    VulframResult.toCode .UnknownError = 1 ∧
    VulframResult.toCode .NotInitialized = 2 ∧
    VulframResult.toCode .AlreadyInitialized = 3 ∧
    VulframResult.toCode .WrongThread = 4 ∧
    VulframResult.toCode .BufferOverflow = 5 ∧
    VulframResult.toCode .WinitError = 1000 ∧
    VulframResult.toCode .WgpuInstanceError = 2000 ∧
    VulframResult.toCode .CmdInvalidCborError = 3000 ∧
    (∀ r : VulframResult, r ∈ allVulframResults) ∧
    (allVulframResults.map VulframResult.toCode).Nodup := by
  decide

/-- C7 (counterexample): neither gateway exposes nine boundary
operations — the bind/ts `dlopen` table has ten distinct entries and
part_004's has eight — and not every buffer-bearing call follows the
two-phase size-then-fill convention: a bind/ts download that returns
two bytes of content has performed exactly one native call (a
pointer-out read), never a separate fill call. -/
theorem gatewayNotAsClaimed :
    bindGatewayOps.Nodup ∧ part004GatewayOps.Nodup ∧
    bindGatewayOps.length ≠ 9 ∧ part004GatewayOps.length ≠ 9 ∧
    engineDownloadBufferCalls
      (fun _ => (⟨0, 1, 2, fun i => i⟩ : RawNativeRead)) 0 = 1 ∧
    (engineDownloadBuffer
      (fun _ => (⟨0, 1, 2, fun i => i⟩ : RawNativeRead)) 0).1.length = 2 := by
  exact ⟨by decide, by decide, by decide, by decide, rfl, rfl⟩

/-- C7 (amended): the bind/ts gateway exposes exactly the ten listed
operations (init, dispose, tick, send-queue, receive-queue,
receive-events, upload-buffer, download-buffer, clear-buffer,
get-profiling) and part_004's gateway exposes eight of them (all but
receive-events and get-profiling); every operation takes only
primitive/pointer/length arguments and returns a 32-bit unsigned result
code. part_004's buffer-bearing reads follow the two-phase
size-then-fill convention — the fill call happens exactly when the
null-destination size query succeeds with a nonzero size, and a
single-call run returns an empty buffer — while the bind/ts
buffer-bearing reads are single-call pointer-out reads: exactly one
native call on every path. -/
theorem gatewaySurface :
    (bindGatewayOps.Nodup ∧ bindGatewayOps.length = 10 ∧
      (∀ op : GatewayOp, op ∈ bindGatewayOps) ∧
      part004GatewayOps.Nodup ∧ part004GatewayOps.length = 8 ∧
      (∀ op : GatewayOp, op ∈ part004GatewayOps →
        op ∈ bindGatewayOps ∧ op ≠ .receiveEvents ∧ op ≠ .getProfiling) ∧
      (∀ op : GatewayOp,
        op ≠ .receiveEvents → op ≠ .getProfiling →
          op ∈ part004GatewayOps) ∧
      (∀ op : GatewayOp, gatewayRet op = FfiType.u32) ∧
      (∀ op : GatewayOp, ∀ t ∈ gatewayArgs op,
        t = FfiType.u64 ∨ t = FfiType.u32 ∨ t = FfiType.usize ∨
          t = FfiType.ptr)) ∧
    (∀ (o : Nat → TwoPhaseNative) (id : Nat),
      (vulframDownloadBufferCalls o id = 2 ↔
        (o id).result1 = 0 ∧ (o id).size1 ≠ 0) ∧
      (vulframDownloadBufferCalls o id = 1 →
        vulframDownloadBuffer o id = ([], (o id).result1))) ∧
    (∀ p : TwoPhaseNative,
      (vulframReceiveQueueCalls p = 2 ↔ p.result1 = 0 ∧ p.size1 ≠ 0) ∧
      (vulframReceiveQueueCalls p = 1 →
        vulframReceiveQueueBytes p = ([], p.result1))) ∧
    (∀ (r : Nat → RawNativeRead) (id : Nat),
      engineDownloadBufferCalls r id = 1) ∧
    (∀ a : RawNativeRead, engineReceiveQueueCalls a = 1 ∧
      engineReceiveEventsCalls a = 1 ∧ engineGetProfilingCalls a = 1) := by
  refine ⟨by decide, fun o id => ⟨?_, ?_⟩, fun p => ⟨?_, ?_⟩,
    fun r id => rfl, fun a => ⟨rfl, rfl, rfl⟩⟩
  · by_cases h1 : (o id).result1 = 0 <;> by_cases h2 : (o id).size1 = 0 <;>
      simp [vulframDownloadBufferCalls, h1, h2]
  · intro h
    by_cases h1 : (o id).result1 = 0 <;> by_cases h2 : (o id).size1 = 0 <;>
      simp_all [vulframDownloadBufferCalls, vulframDownloadBuffer]
  · by_cases h1 : p.result1 = 0 <;> by_cases h2 : p.size1 = 0 <;>
      simp [vulframReceiveQueueCalls, h1, h2]
  · intro h
    by_cases h1 : p.result1 = 0 <;> by_cases h2 : p.size1 = 0 <;>
      simp_all [vulframReceiveQueueCalls, vulframReceiveQueueBytes]

/-- Witness for `gatewaySurface`: the send-queue operation with its
pointer argument, and a failed size query making the download return an
empty buffer after its single phase-1 call. -/
theorem gatewaySurface_witness :
    (GatewayOp.sendQueue ∈ bindGatewayOps ∧
      GatewayOp.sendQueue ≠ .receiveEvents ∧
      GatewayOp.sendQueue ≠ .getProfiling) ∧
    GatewayOp.sendQueue ∈ part004GatewayOps ∧
    (FfiType.ptr = FfiType.u64 ∨ FfiType.ptr = FfiType.u32 ∨
      FfiType.ptr = FfiType.usize ∨ FfiType.ptr = FfiType.ptr) ∧
    vulframDownloadBuffer
      (fun _ => (⟨3, 0, 0, fun _ => 0, 0⟩ : TwoPhaseNative)) 0 = ([], 3) := by
  obtain ⟨⟨-, -, -, -, -, hsub, hall, -, hargs⟩, hdl, -, -, -⟩ :=
    gatewaySurface
  exact ⟨hsub GatewayOp.sendQueue (by decide),
    hall GatewayOp.sendQueue (by decide) (by decide),
    hargs GatewayOp.sendQueue FfiType.ptr (by decide),
    (hdl (fun _ => ⟨3, 0, 0, fun _ => 0, 0⟩) 0).2 rfl⟩

/-- C6 (counterexample): the `EngineEvent` of part_001 has no member
tagged `joystick`, so not every one of the six categories is a
constructible member of that union. -/
theorem cmdsEngineEventNoJoystick :
    ¬ ∃ e : Cmds.EngineEvent, e.tag = EventTag.joystick := by
  rintro ⟨e, he⟩
  cases e <;> simp [Cmds.EngineEvent.tag] at he

/-- C6 (amended): the `EngineEvent` of
src/packages/engine/src/events.ts is a tagged union over exactly the six
categories window, pointer, keyboard, gamepad, joystick, system — every
value carries one of the six tags and every tag is constructible — while
the `EngineEvent` of part_001 covers exactly the five categories other
than joystick. -/
theorem engineEventCategories :
    (∀ e : EngineEvent,
      e.tag = EventTag.window ∨ e.tag = EventTag.pointer ∨
      e.tag = EventTag.keyboard ∨ e.tag = EventTag.gamepad ∨
      e.tag = EventTag.joystick ∨ e.tag = EventTag.system) ∧
    (∀ t : EventTag, ∃ e : EngineEvent, e.tag = t) ∧
    (∀ e : Cmds.EngineEvent, e.tag ≠ EventTag.joystick) ∧
    (∀ t : EventTag, t ≠ EventTag.joystick →
      ∃ e : Cmds.EngineEvent, e.tag = t) := by
  refine ⟨fun e => ?_, fun t => ?_, fun e => ?_, fun t ht => ?_⟩
  · cases e <;> simp [EngineEvent.tag]
  · cases t
    · exact ⟨.window (.created ⟨0⟩), rfl⟩
    · exact ⟨.pointer (.doubleTapGesture ⟨0⟩), rfl⟩
    · exact ⟨.keyboard (.imeEnabled ⟨0⟩), rfl⟩
    · exact ⟨.gamepad (.disconnected ⟨0⟩), rfl⟩
    · exact ⟨.joystick (.disconnected ⟨0⟩), rfl⟩
    · exact ⟨.system .resumed, rfl⟩
  · cases e <;> simp [Cmds.EngineEvent.tag]
  · cases t
    · exact ⟨.window (.resized ⟨0⟩ ⟨0⟩ ⟨0⟩), rfl⟩
    · exact ⟨.pointer (.doubleTapGesture ⟨0⟩), rfl⟩
    · exact ⟨.keyboard (.imeEnabled ⟨0⟩), rfl⟩
    · exact ⟨.gamepad (.disconnected ⟨0⟩), rfl⟩
    · exact absurd rfl ht
    · exact ⟨.system .resumed, rfl⟩

/-- Witness for `engineEventCategories`: the window tag is constructible
in the part_001 union. -/
theorem engineEventCategories_witness :
    EventTag.window ≠ EventTag.joystick ∧
    ∃ e : Cmds.EngineEvent, e.tag = EventTag.window := by
  exact ⟨by decide, engineEventCategories.2.2.2 EventTag.window (by decide)⟩

/-- C8: the library `close()` is registered only on `beforeExit`, which
fires only when the event loop drains normally; on `process.exit()`, a
fatal error, or a terminating signal, the loaded native library handle is
not released — contradicting the spec's demand for a guaranteed-cleanup
path on every (including abnormal) host termination. -/
theorem dlcloseOnlyOnBeforeExit :
    dlcloseRuns .loopDrained = true ∧
    dlcloseRuns .explicitExit = false ∧
    dlcloseRuns .fatalError = false ∧
    dlcloseRuns .killedBySignal = false := by
  decide

/-- C1: in the two-phase downloads, a zero reported size makes the
function return an empty buffer with the native result code without
performing the fill phase; if phase 1 succeeds with size `N > 0` and the
fill call succeeds (for the bind/ts single-call shape: the reported
source pointer is nonzero), the function allocates and returns a buffer
of exactly `N` bytes together with the native result code. -/
theorem downloadTwoPhase (o : Nat → TwoPhaseNative) (r : Nat → RawNativeRead)
    (id N : Nat) :
    ((o id).size1 = 0 →
      vulframDownloadBuffer o id = ([], (o id).result1) ∧
      vulframDownloadBufferCalls o id = 1) ∧
    ((o id).result1 = 0 → (o id).size1 = N → 0 < N → (o id).result2 = 0 →
      vulframDownloadBufferCalls o id = 2 ∧
      (vulframDownloadBuffer o id).1.length = N ∧
      (vulframDownloadBuffer o id).2 = (o id).result2) ∧
    ((r id).sizeVal = 0 → engineDownloadBuffer r id = ([], (r id).result)) ∧
    ((r id).sizeVal = N → 0 < N → (r id).ptrVal ≠ 0 →
      (engineDownloadBuffer r id).1.length = N ∧
      (engineDownloadBuffer r id).2 = (r id).result) := by
  refine ⟨fun h0 => ?_, fun h1 h2 h3 h4 => ?_, fun h0 => ?_,
    fun h1 h2 h3 => ?_⟩
  · constructor <;>
      simp [vulframDownloadBuffer, vulframDownloadBufferCalls, h0]
  · have h5 : N ≠ 0 := by omega
    refine ⟨?_, ?_, ?_⟩ <;>
      simp [vulframDownloadBuffer, vulframDownloadBufferCalls, h1, h2, h4, h5]
  · simp [engineDownloadBuffer, h0]
  · have h5 : N ≠ 0 := by omega
    constructor <;> simp [engineDownloadBuffer, h1, h3, h5]

/-- Witness for `downloadTwoPhase` at concrete native behaviours: a
zero-size phase 1, a successful 3-byte two-phase download, a zero-size
single-call read, and a successful 2-byte single-call read. -/
theorem downloadTwoPhase_witness :
    (vulframDownloadBuffer
        (fun _ => (⟨0, 0, 0, fun _ => 0, 0⟩ : TwoPhaseNative)) 0
        = ([], 0) ∧
      vulframDownloadBufferCalls
        (fun _ => (⟨0, 0, 0, fun _ => 0, 0⟩ : TwoPhaseNative)) 0 = 1) ∧
    (vulframDownloadBufferCalls
        (fun _ => (⟨0, 3, 0, fun _ => 7, 9⟩ : TwoPhaseNative)) 1 = 2 ∧
      (vulframDownloadBuffer
        (fun _ => (⟨0, 3, 0, fun _ => 7, 9⟩ : TwoPhaseNative)) 1).1.length
        = 3 ∧
      (vulframDownloadBuffer
        (fun _ => (⟨0, 3, 0, fun _ => 7, 9⟩ : TwoPhaseNative)) 1).2 = 0) ∧
    engineDownloadBuffer
        (fun _ => (⟨5, 1, 0, fun _ => 0⟩ : RawNativeRead)) 0 = ([], 5) ∧
    ((engineDownloadBuffer
        (fun _ => (⟨0, 1, 2, fun i => i⟩ : RawNativeRead)) 0).1.length
        = 2 ∧
      (engineDownloadBuffer
        (fun _ => (⟨0, 1, 2, fun i => i⟩ : RawNativeRead)) 0).2 = 0) := by
  refine ⟨?_, ?_, ?_, ?_⟩
  · exact (downloadTwoPhase (fun _ => ⟨0, 0, 0, fun _ => 0, 0⟩)
      (fun _ => ⟨0, 0, 0, fun _ => 0⟩) 0 0).1 rfl
  · exact (downloadTwoPhase (fun _ => ⟨0, 3, 0, fun _ => 7, 9⟩)
      (fun _ => ⟨0, 0, 0, fun _ => 0⟩) 1 3).2.1 rfl rfl (by decide) rfl
  · exact (downloadTwoPhase (fun _ => ⟨0, 0, 0, fun _ => 0, 0⟩)
      (fun _ => ⟨5, 1, 0, fun _ => 0⟩) 0 0).2.2.1 rfl
  · exact (downloadTwoPhase (fun _ => ⟨0, 0, 0, fun _ => 0, 0⟩)
      (fun _ => ⟨0, 1, 2, fun i => i⟩) 0 2).2.2.2 rfl (by decide) (by decide)

/-- C10: whenever the native call reports a nonzero size but a zero
source pointer, the bind/ts read functions return an empty buffer paired
with the native result code and perform no pointer reads; the byte-copy
loop reads memory only when both the reported size and the reported
pointer are nonzero. -/
theorem nullPointerGuard (d : Nat → RawNativeRead) (id : Nat)
    (a b c : RawNativeRead) :
    ((d id).sizeVal ≠ 0 → (d id).ptrVal = 0 →
      engineDownloadBuffer d id = ([], (d id).result) ∧
      engineDownloadBufferReads d id = []) ∧
    (a.sizeVal ≠ 0 → a.ptrVal = 0 →
      engineReceiveQueue a = ([], a.result) ∧
      engineReceiveQueueReads a = []) ∧
    (b.sizeVal ≠ 0 → b.ptrVal = 0 →
      engineReceiveEvents b = ([], b.result) ∧
      engineReceiveEventsReads b = []) ∧
    (c.sizeVal ≠ 0 → c.ptrVal = 0 →
      engineGetProfiling c = ([], c.result) ∧
      engineGetProfilingReads c = []) ∧
    (engineDownloadBufferReads d id ≠ [] →
      (d id).sizeVal ≠ 0 ∧ (d id).ptrVal ≠ 0) ∧
    (engineReceiveQueueReads a ≠ [] → a.sizeVal ≠ 0 ∧ a.ptrVal ≠ 0) ∧
    (engineReceiveEventsReads b ≠ [] → b.sizeVal ≠ 0 ∧ b.ptrVal ≠ 0) ∧
    (engineGetProfilingReads c ≠ [] → c.sizeVal ≠ 0 ∧ c.ptrVal ≠ 0) := by
  refine ⟨fun h1 h2 => ?_, fun h1 h2 => ?_, fun h1 h2 => ?_,
    fun h1 h2 => ?_, fun h => ?_, fun h => ?_, fun h => ?_, fun h => ?_⟩
  · constructor <;>
      simp [engineDownloadBuffer, engineDownloadBufferReads, h1, h2]
  · constructor <;>
      simp [engineReceiveQueue, engineReceiveQueueReads, h1, h2]
  · constructor <;>
      simp [engineReceiveEvents, engineReceiveEventsReads, h1, h2]
  · constructor <;>
      simp [engineGetProfiling, engineGetProfilingReads, h1, h2]
  · by_cases h1 : (d id).sizeVal = 0 <;> by_cases h2 : (d id).ptrVal = 0 <;>
      simp_all [engineDownloadBufferReads]
  · by_cases h1 : a.sizeVal = 0 <;> by_cases h2 : a.ptrVal = 0 <;>
      simp_all [engineReceiveQueueReads]
  · by_cases h1 : b.sizeVal = 0 <;> by_cases h2 : b.ptrVal = 0 <;>
      simp_all [engineReceiveEventsReads]
  · by_cases h1 : c.sizeVal = 0 <;> by_cases h2 : c.ptrVal = 0 <;>
      simp_all [engineGetProfilingReads]

/-- Witness for `nullPointerGuard`: a nonzero size with a zero pointer on
the download path, and a nonempty read set on the receive-queue path. -/
theorem nullPointerGuard_witness :
    (engineDownloadBuffer
        (fun _ => (⟨3, 0, 5, fun _ => 0⟩ : RawNativeRead)) 0 = ([], 3) ∧
      engineDownloadBufferReads
        (fun _ => (⟨3, 0, 5, fun _ => 0⟩ : RawNativeRead)) 0 = []) ∧
    ((⟨0, 1, 2, fun i => i⟩ : RawNativeRead).sizeVal ≠ 0 ∧
      (⟨0, 1, 2, fun i => i⟩ : RawNativeRead).ptrVal ≠ 0) := by
  constructor
  · exact (nullPointerGuard (fun _ => ⟨3, 0, 5, fun _ => 0⟩) 0
      ⟨0, 0, 0, fun _ => 0⟩ ⟨0, 0, 0, fun _ => 0⟩
      ⟨0, 0, 0, fun _ => 0⟩).1 (by decide) rfl
  · exact (nullPointerGuard (fun _ => ⟨3, 0, 5, fun _ => 0⟩) 0
      ⟨0, 1, 2, fun i => i⟩ ⟨0, 0, 0, fun _ => 0⟩
      ⟨0, 0, 0, fun _ => 0⟩).2.2.2.2.2.1 (by decide)

/-- C4: every read function returns a buffer no longer than the
first-phase reported size; the copy loops read only offsets below that
size; the result of a copy loop depends only on the memory below that
size; and the two-phase functions ignore the size the native call
reports on the second pass. -/
theorem noOverread (o : Nat → TwoPhaseNative) (id : Nat)
    (p : TwoPhaseNative) (a b c a2 : RawNativeRead)
    (d : Nat → RawNativeRead) :
    (vulframDownloadBuffer o id).1.length ≤ (o id).size1 ∧
    (vulframReceiveQueueBytes p).1.length ≤ p.size1 ∧
    (engineDownloadBuffer d id).1.length ≤ (d id).sizeVal ∧
    (engineReceiveQueue a).1.length ≤ a.sizeVal ∧
    (engineReceiveEvents b).1.length ≤ b.sizeVal ∧
    (engineGetProfiling c).1.length ≤ c.sizeVal ∧
    (∀ i ∈ engineDownloadBufferReads d id, i < (d id).sizeVal) ∧
    (∀ i ∈ engineReceiveQueueReads a, i < a.sizeVal) ∧
    (∀ i ∈ engineReceiveEventsReads b, i < b.sizeVal) ∧
    (∀ i ∈ engineGetProfilingReads c, i < c.sizeVal) ∧
    (a.result = a2.result → a.ptrVal = a2.ptrVal → a.sizeVal = a2.sizeVal →
      (∀ i, i < a.sizeVal → a.mem i = a2.mem i) →
      engineReceiveQueue a = engineReceiveQueue a2) ∧
    (∀ s, vulframDownloadBuffer (fun j => { o j with size2 := s }) id
      = vulframDownloadBuffer o id) := by
  refine ⟨?_, ?_, ?_, ?_, ?_, ?_, ?_, ?_, ?_, ?_,
    fun h1 h2 h3 h4 => ?_, fun s => rfl⟩
  · simp only [vulframDownloadBuffer]
    split <;> [simp; split <;> simp]
  · simp only [vulframReceiveQueueBytes]
    split <;> [simp; split <;> simp]
  · simp only [engineDownloadBuffer]
    split <;> [simp; split <;> simp]
  · simp only [engineReceiveQueue]
    split <;> [simp; split <;> simp]
  · simp only [engineReceiveEvents]
    split <;> [simp; split <;> simp]
  · simp only [engineGetProfiling]
    split <;> [simp; split <;> simp]
  · simp only [engineDownloadBufferReads]
    split <;> [simp; split <;> simp [List.mem_range]]
  · simp only [engineReceiveQueueReads]
    split <;> [simp; split <;> simp [List.mem_range]]
  · simp only [engineReceiveEventsReads]
    split <;> [simp; split <;> simp [List.mem_range]]
  · simp only [engineGetProfilingReads]
    split <;> [simp; split <;> simp [List.mem_range]]
  · simp only [engineReceiveQueue]
    rw [h1, h2, h3]
    split
    · rfl
    · split
      · rfl
      · have : (List.range a2.sizeVal).map a.mem
            = (List.range a2.sizeVal).map a2.mem := by
          refine List.map_congr_left fun i hi => ?_
          exact h4 i (h3 ▸ List.mem_range.mp hi)
        rw [this]

/-- Witness for `noOverread`: the frame property at two oracles that
agree below the reported size. -/
theorem noOverread_witness :
    engineReceiveQueue (⟨0, 1, 2, fun i => i⟩ : RawNativeRead)
      = engineReceiveQueue (⟨0, 1, 2, fun i => i % 2⟩ : RawNativeRead) := by
  refine (noOverread (fun _ => ⟨0, 0, 0, fun _ => 0, 0⟩) 0
    ⟨0, 0, 0, fun _ => 0, 0⟩ ⟨0, 1, 2, fun i => i⟩
    ⟨0, 0, 0, fun _ => 0⟩ ⟨0, 0, 0, fun _ => 0⟩
    ⟨0, 1, 2, fun i => i % 2⟩
    (fun _ => ⟨0, 0, 0, fun _ => 0⟩)).2.2.2.2.2.2.2.2.2.2.1
    rfl rfl rfl (fun i hi => ?_)
  interval_cases i <;> rfl

/-- C3: `vulframReceiveQueue` has no handler around `decode(buffer)`;
when the native core hands back a malformed payload (here the single
byte `0xFF`, an invalid CBOR head), the decode failure escapes as an
uncaught exception instead of being reported as an error result with an
empty batch. -/
theorem receiveQueueUncaughtDecodeThrow :
    vulframReceiveQueue ⟨0, 1, 0, fun _ => 255, 1⟩ = Except.error () := by
  rfl

/-- Parsing a preferred-form head recovers the major type, the head form
and the argument, consuming exactly the head's bytes. -/
theorem decodeHead_cborHead (m n : Nat) (rest : List Nat) (_hm : m < 8)
    (hn : n < 18446744073709551616) :
    decodeHead (cborHead m n ++ rest) = some (m, aiOf n, n, rest) := by
  unfold cborHead aiOf
  by_cases h1 : n < 24
  · simp only [if_pos h1, List.cons_append, List.nil_append, decodeHead]
    rw [show (32 * m + n) / 32 = m from by omega,
      show (32 * m + n) % 32 = n from by omega]
    simp [h1]
  · by_cases h2 : n < 256
    · simp only [if_neg h1, if_pos h2, List.cons_append, List.nil_append,
        decodeHead]
      rw [show (32 * m + 24) / 32 = m from by omega,
        show (32 * m + 24) % 32 = 24 from by omega]
      simp
    · by_cases h3 : n < 65536
      · simp only [if_neg h1, if_neg h2, if_pos h3, List.cons_append,
          List.nil_append, decodeHead]
        rw [show (32 * m + 25) / 32 = m from by omega,
          show (32 * m + 25) % 32 = 25 from by omega]
        simp
        omega
      · by_cases h4 : n < 4294967296
        · simp only [if_neg h1, if_neg h2, if_neg h3, if_pos h4,
            List.cons_append, List.nil_append, decodeHead]
          rw [show (32 * m + 26) / 32 = m from by omega,
            show (32 * m + 26) % 32 = 26 from by omega]
          simp
          omega
        · simp only [if_neg h1, if_neg h2, if_neg h3, if_neg h4, be8,
            List.cons_append, List.nil_append, decodeHead]
          rw [show (32 * m + 27) / 32 = m from by omega,
            show (32 * m + 27) % 32 = 27 from by omega]
          simp
          omega

/-- Parsing the head of an encoded float recovers its 64-bit image. -/
theorem decodeHead_float (bits : Nat) (rest : List Nat)
    (hb : bits < 18446744073709551616) :
    decodeHead (251 :: (be8 bits ++ rest)) = some (7, 27, bits, rest) := by
  simp only [be8, List.cons_append, List.nil_append, decodeHead]
  norm_num
  omega

/-- Every head is at least one byte. -/
theorem cborHead_length_pos (m n : Nat) : 1 ≤ (cborHead m n).length := by
  unfold cborHead
  split_ifs <;> simp [be8]

/-- Every encoded item is at least one byte. -/
theorem encodeItem_length_pos (v : CborValue) : 1 ≤ (encodeItem v).length := by
  cases v with
  | uint n => simpa [encodeItem] using cborHead_length_pos 0 n
  | nint n => simpa [encodeItem] using cborHead_length_pos 1 n
  | bytes bs =>
    have := cborHead_length_pos 2 bs.length
    simp [encodeItem]
    omega
  | text ts =>
    have := cborHead_length_pos 3 ts.length
    simp [encodeItem]
    omega
  | arr items =>
    have := cborHead_length_pos 4 items.length
    simp [encodeItem]
    omega
  | map pairs =>
    have := cborHead_length_pos 5 pairs.length
    simp [encodeItem]
    omega
  | bool b => cases b <;> simp [encodeItem]
  | null => simp [encodeItem]
  | undefined => simp [encodeItem]
  | float bits => simp [encodeItem, be8]

/-- Decoding fuel needed for an item is at least one. -/
theorem needItem_pos (v : CborValue) : 1 ≤ needItem v := by
  cases v <;> simp [needItem]

/-- The fuel needed to decode an encoding is at most twice its length. -/
theorem needBound : ∀ k : Nat,
    (∀ v : CborValue, sizeOf v < k →
      needItem v ≤ 2 * (encodeItem v).length) ∧
    (∀ l : List CborValue, sizeOf l < k →
      needList l ≤ 2 * (encodeList l).length + 1) ∧
    (∀ ps : List (CborValue × CborValue), sizeOf ps < k →
      needPairs ps ≤ 2 * (encodePairs ps).length + 1) := by
  intro k
  induction k with
  | zero =>
    exact ⟨fun v hv => absurd hv (Nat.not_lt_zero _),
      fun l hl => absurd hl (Nat.not_lt_zero _),
      fun ps hp => absurd hp (Nat.not_lt_zero _)⟩
  | succ k ih =>
    refine ⟨fun v hv => ?_, fun l hl => ?_, fun ps hp => ?_⟩
    · cases v with
      | arr items =>
        have hs : sizeOf items < k := by
          simp only [CborValue.arr.sizeOf_spec] at hv
          omega
        have h1 := ih.2.1 items hs
        have h2 := cborHead_length_pos 4 items.length
        simp only [needItem, encodeItem, List.length_append]
        omega
      | map pairs =>
        have hs : sizeOf pairs < k := by
          simp only [CborValue.map.sizeOf_spec] at hv
          omega
        have h1 := ih.2.2 pairs hs
        have h2 := cborHead_length_pos 5 pairs.length
        simp only [needItem, encodeItem, List.length_append]
        omega
      | uint n =>
        have := encodeItem_length_pos (.uint n)
        simp only [needItem]
        omega
      | nint n =>
        have := encodeItem_length_pos (.nint n)
        simp only [needItem]
        omega
      | bytes bs =>
        have := encodeItem_length_pos (.bytes bs)
        simp only [needItem]
        omega
      | text ts =>
        have := encodeItem_length_pos (.text ts)
        simp only [needItem]
        omega
      | bool b =>
        have := encodeItem_length_pos (.bool b)
        simp only [needItem]
        omega
      | null =>
        have := encodeItem_length_pos .null
        simp only [needItem]
        omega
      | undefined =>
        have := encodeItem_length_pos .undefined
        simp only [needItem]
        omega
      | float bits =>
        have := encodeItem_length_pos (.float bits)
        simp only [needItem]
        omega
    · cases l with
      | nil => simp [needList]
      | cons v vs =>
        have hsv : sizeOf v < k := by
          simp only [List.cons.sizeOf_spec] at hl
          omega
        have hsvs : sizeOf vs < k := by
          simp only [List.cons.sizeOf_spec] at hl
          omega
        have h1 := ih.1 v hsv
        have h2 := ih.2.1 vs hsvs
        have h3 := encodeItem_length_pos v
        simp only [needList, encodeList, List.length_append]
        omega
    · cases ps with
      | nil => simp [needPairs]
      | cons e es =>
        obtain ⟨k1, v1⟩ := e
        have hsk : sizeOf k1 < k := by
          simp only [List.cons.sizeOf_spec, Prod.mk.sizeOf_spec] at hp
          omega
        have hsv : sizeOf v1 < k := by
          simp only [List.cons.sizeOf_spec, Prod.mk.sizeOf_spec] at hp
          omega
        have hses : sizeOf es < k := by
          simp only [List.cons.sizeOf_spec, Prod.mk.sizeOf_spec] at hp
          omega
        have h1 := ih.1 k1 hsk
        have h2 := ih.1 v1 hsv
        have h3 := ih.2.2 es hses
        have h4 := encodeItem_length_pos k1
        have h5 := encodeItem_length_pos v1
        simp only [needPairs, encodePairs, List.length_append]
        omega

/-- One-step unfolding of `decodeList` on a positive count. -/
theorem decodeList_succ (fuel k : Nat) (bytes : List Nat) :
    decodeList (fuel + 1) (k + 1) bytes
      = match decodeItem fuel bytes with
        | none => none
        | some (v, r) =>
          match decodeList fuel k r with
          | none => none
          | some (vs, r2) => some (v :: vs, r2) := rfl

/-- One-step unfolding of `decodePairs` on a positive count. -/
theorem decodePairs_succ (fuel k : Nat) (bytes : List Nat) :
    decodePairs (fuel + 1) (k + 1) bytes
      = match decodeItem fuel bytes with
        | none => none
        | some (k1, r) =>
          match decodeItem fuel r with
          | none => none
          | some (v1, r2) =>
            match decodePairs fuel k r2 with
            | none => none
            | some (ps, r3) => some ((k1, v1) :: ps, r3) := rfl

/-- With enough fuel, decoding inverts encoding, leaving any trailing
bytes untouched: the codec round-trips every well-formed item, element
sequence and entry sequence. -/
theorem decode_encode : ∀ fuel : Nat,
    (∀ v rest, cborWf v = true → needItem v ≤ fuel →
      decodeItem fuel (encodeItem v ++ rest) = some (v, rest)) ∧
    (∀ l rest, cborWfList l = true → needList l ≤ fuel →
      decodeList fuel l.length (encodeList l ++ rest) = some (l, rest)) ∧
    (∀ ps rest, cborWfPairs ps = true → needPairs ps ≤ fuel →
      decodePairs fuel ps.length (encodePairs ps ++ rest) = some (ps, rest)) := by
  intro fuel
  induction fuel with
  | zero =>
    refine ⟨fun v rest hwf hne => ?_, fun l rest hwf hne => ?_,
      fun ps rest hwf hne => ?_⟩
    · exact absurd hne (by have := needItem_pos v; omega)
    · cases l with
      | nil =>
        show decodeList 0 0 (encodeList [] ++ rest) = some ([], rest)
        rfl
      | cons v vs => simp only [needList] at hne; omega
    · cases ps with
      | nil =>
        show decodePairs 0 0 (encodePairs [] ++ rest) = some ([], rest)
        rfl
      | cons e es =>
        obtain ⟨k1, v1⟩ := e
        simp only [needPairs] at hne
        omega
  | succ fuel ih =>
    refine ⟨fun v rest hwf hne => ?_, fun l rest hwf hne => ?_,
      fun ps rest hwf hne => ?_⟩
    · cases v with
      | uint n =>
        have hn : n < 18446744073709551616 := by
          simpa [cborWf] using hwf
        simp [encodeItem, decodeItem,
          decodeHead_cborHead 0 n rest (by omega) hn]
      | nint n =>
        have hn : n < 18446744073709551616 := by
          simpa [cborWf] using hwf
        simp [encodeItem, decodeItem,
          decodeHead_cborHead 1 n rest (by omega) hn]
      | bytes bs =>
        have hn : bs.length < 18446744073709551616 := by
          simpa [cborWf] using hwf
        simp only [encodeItem, List.append_assoc, decodeItem,
          decodeHead_cborHead 2 bs.length (bs ++ rest) (by omega) hn]
        simp [List.take_left, List.drop_left, Nat.le_add_right]
      | text ts =>
        have hn : ts.length < 18446744073709551616 := by
          simpa [cborWf] using hwf
        simp only [encodeItem, List.append_assoc, decodeItem,
          decodeHead_cborHead 3 ts.length (ts ++ rest) (by omega) hn]
        simp [List.take_left, List.drop_left, Nat.le_add_right]
      | arr items =>
        rw [cborWf] at hwf
        simp only [Bool.and_eq_true, decide_eq_true_eq] at hwf
        have hne2 : needList items ≤ fuel := by
          simp only [needItem] at hne
          omega
        simp only [encodeItem, List.append_assoc, decodeItem,
          decodeHead_cborHead 4 items.length (encodeList items ++ rest)
            (by omega) (by omega)]
        simp [ih.2.1 items rest hwf.2 hne2]
      | map pairs =>
        rw [cborWf] at hwf
        simp only [Bool.and_eq_true, decide_eq_true_eq] at hwf
        have hne2 : needPairs pairs ≤ fuel := by
          simp only [needItem] at hne
          omega
        simp only [encodeItem, List.append_assoc, decodeItem,
          decodeHead_cborHead 5 pairs.length (encodePairs pairs ++ rest)
            (by omega) (by omega)]
        simp [ih.2.2 pairs rest hwf.2 hne2]
      | bool b => cases b <;> simp [encodeItem, decodeItem, decodeHead]
      | null => simp [encodeItem, decodeItem, decodeHead]
      | undefined => simp [encodeItem, decodeItem, decodeHead]
      | float bits =>
        have hb : bits < 18446744073709551616 := by
          simpa [cborWf] using hwf
        simp [encodeItem, decodeItem, decodeHead_float bits rest hb]
    · cases l with
      | nil =>
        show decodeList (fuel + 1) 0 (encodeList [] ++ rest) = some ([], rest)
        rfl
      | cons v vs =>
        simp only [cborWfList, Bool.and_eq_true] at hwf
        have hb1 : needItem v ≤ fuel := by
          simp only [needList] at hne
          omega
        have hb2 : needList vs ≤ fuel := by
          simp only [needList] at hne
          omega
        have e1 := ih.1 v (encodeList vs ++ rest) hwf.1 hb1
        have e2 := ih.2.1 vs rest hwf.2 hb2
        have eL : encodeList (v :: vs) = encodeItem v ++ encodeList vs := rfl
        show decodeList (fuel + 1) (v :: vs).length
          (encodeList (v :: vs) ++ rest) = some (v :: vs, rest)
        rw [List.length_cons, eL, List.append_assoc, decodeList_succ]
        simp only [e1, e2]
    · cases ps with
      | nil =>
        show decodePairs (fuel + 1) 0 (encodePairs [] ++ rest)
          = some ([], rest)
        rfl
      | cons e es =>
        obtain ⟨k1, v1⟩ := e
        simp only [cborWfPairs, Bool.and_eq_true] at hwf
        have hb1 : needItem k1 ≤ fuel := by
          simp only [needPairs] at hne
          omega
        have hb2 : needItem v1 ≤ fuel := by
          simp only [needPairs] at hne
          omega
        have hb3 : needPairs es ≤ fuel := by
          simp only [needPairs] at hne
          omega
        have e1 := ih.1 k1 (encodeItem v1 ++ (encodePairs es ++ rest))
          hwf.1.1 hb1
        have e2 := ih.1 v1 (encodePairs es ++ rest) hwf.1.2 hb2
        have e3 := ih.2.2 es rest hwf.2 hb3
        have eP : encodePairs ((k1, v1) :: es)
            = encodeItem k1 ++ (encodeItem v1 ++ encodePairs es) := by
          simp only [encodePairs, List.append_assoc]
        show decodePairs (fuel + 1) ((k1, v1) :: es).length
          (encodePairs ((k1, v1) :: es) ++ rest) = some ((k1, v1) :: es, rest)
        rw [List.length_cons, eP, List.append_assoc, List.append_assoc,
          decodePairs_succ]
        simp only [e1, e2, e3]

/-- `decode(encode(v))` recovers any well-formed item exactly. -/
theorem cborDecodeOne_encodeItem (v : CborValue) (h : cborWf v = true) :
    cborDecodeOne (encodeItem v) = some v := by
  unfold cborDecodeOne
  have hne : needItem v ≤ 2 * (encodeItem v).length :=
    (needBound (sizeOf v + 1)).1 v (by omega)
  have hd := (decode_encode (2 * (encodeItem v).length + 2)).1 v [] h
    (by omega)
  rw [List.append_nil] at hd
  rw [hd]

/-- Reading back a built envelope returns its fields and identifier. -/
theorem envelopeFields_mkEnvelope (f : List (CborValue × CborValue))
    (id : Nat) : envelopeFields (mkEnvelope f id) = some (f, id) := by
  simp [mkEnvelope, envelopeFields, List.getLast?_concat,
    List.dropLast_concat]

/-- Reading back every envelope of a built batch returns the batch. -/
theorem envelopesOf_map (batch : List (List (CborValue × CborValue) × Nat)) :
    envelopesOf (batch.map fun e => mkEnvelope e.1 e.2) = some batch := by
  induction batch with
  | nil => rfl
  | cons e es ih => simp [envelopesOf, envelopeFields_mkEnvelope, ih]

/-- Each category discriminant string is recognized as its own tag. -/
theorem tagOfBytes_eventTagBytes (t : EventTag) :
    tagOfBytes (eventTagBytes t) = some t := by
  cases t <;> rfl

/-- Reading back a built tagged event returns its tag and content. -/
theorem taggedEventFields_mkTaggedEvent (t : EventTag) (c : CborValue) :
    taggedEventFields (mkTaggedEvent t c) = some (t, c) := by
  simp [mkTaggedEvent, taggedEventFields, tagOfBytes_eventTagBytes]

/-- Reading back every tagged event of a built batch returns the batch. -/
theorem taggedEventsOf_map (batch : List (EventTag × CborValue)) :
    taggedEventsOf (batch.map fun e => mkTaggedEvent e.1 e.2) = some batch := by
  induction batch with
  | nil => rfl
  | cons e es ih => simp [taggedEventsOf, taggedEventFields_mkTaggedEvent, ih]

/-- C2: decoding the bytes the encoder produces reproduces the original
batch exactly — every command envelope with its variant fields and its
identifier — and the same round-trip holds for response batches and for
tagged event batches. -/
theorem batchRoundTrip (cmds resps : List (List (CborValue × CborValue) × Nat))
    (evs : List (EventTag × CborValue))
    (hc : cborWf (.arr (cmds.map fun e => mkEnvelope e.1 e.2)) = true)
    (hr : cborWf (.arr (resps.map fun e => mkEnvelope e.1 e.2)) = true)
    (he : cborWf (.arr (evs.map fun e => mkTaggedEvent e.1 e.2)) = true) :
    decodeEnvBatch (encodeEnvBatch cmds) = some cmds ∧
    decodeEnvBatch (encodeEnvBatch resps) = some resps ∧
    decodeEventBatch (encodeEventBatch evs) = some evs := by
  refine ⟨?_, ?_, ?_⟩
  · unfold decodeEnvBatch encodeEnvBatch
    rw [cborDecodeOne_encodeItem _ hc]
    simp [envelopesOf_map]
  · unfold decodeEnvBatch encodeEnvBatch
    rw [cborDecodeOne_encodeItem _ hr]
    simp [envelopesOf_map]
  · unfold decodeEventBatch encodeEventBatch
    rw [cborDecodeOne_encodeItem _ he]
    simp [taggedEventsOf_map]

/-- Witness for `batchRoundTrip`: a one-command batch with identifier 7
and a variant field, an empty response batch, and a one-event batch. -/
theorem batchRoundTrip_witness :
    decodeEnvBatch (encodeEnvBatch [([(.text [97], .uint 5)], 7)])
      = some [([(.text [97], .uint 5)], 7)] ∧
    decodeEnvBatch (encodeEnvBatch []) = some [] ∧
    decodeEventBatch (encodeEventBatch [(EventTag.window, .null)])
      = some [(EventTag.window, .null)] :=
  batchRoundTrip [([(.text [97], .uint 5)], 7)] [] [(EventTag.window, .null)]
    (by decide) (by decide) (by decide)

/-- When the `dirname` scan finds a cut index, the index lies between 1
and its starting counter, strictly below it when the scan starts in the
matched state. -/
theorem dirnameScan_bounds :
    ∀ (cs : List Char) (i : Nat) (m : Bool) (e : Nat),
      dirnameScan cs i m = some e → cs.length = i →
      1 ≤ e ∧ e ≤ i ∧ (m = true → e + 1 ≤ i) := by
  intro cs
  induction cs with
  | nil =>
    intro i m e h _
    simp [dirnameScan] at h
  | cons c cs ih =>
    intro i m e h hlen
    simp only [List.length_cons] at hlen
    rw [dirnameScan] at h
    by_cases hc : c = '/'
    · rw [if_pos hc] at h
      cases m with
      | true =>
        rw [if_pos rfl] at h
        have hb := ih (i - 1) true e h (by omega)
        exact ⟨hb.1, by omega, fun _ => by have := hb.2.2 rfl; omega⟩
      | false =>
        rw [if_neg (by simp)] at h
        simp only [Option.some.injEq] at h
        exact ⟨by omega, by omega, fun hf => by simp at hf⟩
    · rw [if_neg hc] at h
      have hb := ih (i - 1) false e h (by omega)
      exact ⟨hb.1, by omega, fun _ => by omega⟩

/-- The current directory is `dirname`'s fixed point. -/
theorem posixDirname_dot : posixDirname ['.'] = ['.'] := rfl

/-- Away from its fixed points, one `dirname` step strictly decreases
the termination measure. -/
theorem posixDirname_progress (p : List Char) (hne : posixDirname p ≠ p) :
    dirMeasure (posixDirname p) < dirMeasure p := by
  match p with
  | [] =>
    show dirMeasure (posixDirname []) < dirMeasure []
    decide
  | c :: rest =>
    rw [posixDirname] at hne ⊢
    simp only [List.isEmpty_cons, Bool.false_eq_true, if_false,
      List.drop_succ_cons, List.drop_zero, List.length_cons,
      Nat.add_sub_cancel, List.head?_cons, Option.some.injEq] at hne ⊢
    cases hscan : dirnameScan rest.reverse rest.length true with
    | none =>
      rw [hscan] at hne
      dsimp only at hne ⊢
      by_cases hc : c = '/'
      · rw [if_pos hc] at hne ⊢
        have hr : rest ≠ [] := by
          intro hrest
          subst hrest hc
          exact hne rfl
        have hlen : 1 ≤ rest.length := List.length_pos.mpr hr
        rw [dirMeasure, dirMeasure]
        split_ifs with h1 h2 h3 h4 h5 <;> simp_all <;> omega
      · rw [if_neg hc] at hne ⊢
        have hdot : (c :: rest) ≠ ['.'] := by
          intro hd
          rw [hd] at hne
          exact hne rfl
        rw [dirMeasure, dirMeasure]
        split_ifs with h1 h2 h3 h4 h5 <;> simp_all <;> omega
    | some e =>
      rw [hscan] at hne
      dsimp only at hne ⊢
      have hb := dirnameScan_bounds rest.reverse rest.length true e hscan
        (by simp)
      have he1 : 1 ≤ e := hb.1
      have he2 : e + 1 ≤ rest.length := hb.2.2 rfl
      split_ifs with h4
      · rw [dirMeasure, dirMeasure]
        split_ifs with h1 h2 h3 h5 <;> simp_all <;> omega
      · have htake : (c :: rest).take e ≠ [] := by
          cases e with
          | zero => omega
          | succ k => simp [List.take_cons]
        have hlt : ((c :: rest).take e).length = e := by
          simp only [List.length_take, List.length_cons]
          omega
        rw [dirMeasure, dirMeasure]
        split_ifs with h1 h2 h3 h5 <;> simp_all <;> omega

/-- A successful run of the walk keeps its result under any larger
budget. -/
theorem findProjectRootFuel_mono (hasPkg : List Char → Bool) :
    ∀ fuel dir r, findProjectRootFuel hasPkg fuel dir = some r →
      ∀ extra, findProjectRootFuel hasPkg (fuel + extra) dir = some r := by
  intro fuel
  induction fuel with
  | zero =>
    intro dir r h
    simp [findProjectRootFuel] at h
  | succ f ih =>
    intro dir r h extra
    rw [show f + 1 + extra = (f + extra) + 1 from by omega]
    rw [findProjectRootFuel] at h ⊢
    by_cases hp : hasPkg dir = true
    · simpa [hp] using h
    · simp only [hp, Bool.false_eq_true, if_false] at h ⊢
      by_cases hfix : posixDirname dir = dir
      · simpa [hfix] using h
      · simp only [hfix, if_false] at h ⊢
        exact ih _ _ h extra

/-- The measure is positive. -/
theorem dirMeasure_pos (p : List Char) : 1 ≤ dirMeasure p := by
  rw [dirMeasure]
  split_ifs with h1 h2
  · omega
  · subst h2
    simp
  · omega

/-- With budget `dirMeasure dir`, the walk reaches a return whose result
either holds a `package.json` or is `dirname`'s fixed point. -/
theorem findProjectRootFuel_spec (hasPkg : List Char → Bool) :
    ∀ fuel dir, dirMeasure dir ≤ fuel →
      ∃ r, findProjectRootFuel hasPkg fuel dir = some r ∧
        (hasPkg r = true ∨ posixDirname r = r) := by
  intro fuel
  induction fuel using Nat.strong_induction_on with
  | _ fuel ih =>
    intro dir hle
    cases fuel with
    | zero => exact absurd hle (by have := dirMeasure_pos dir; omega)
    | succ f =>
      by_cases hp : hasPkg dir = true
      · exact ⟨dir, by simp [findProjectRootFuel, hp], Or.inl hp⟩
      by_cases hfix : posixDirname dir = dir
      · exact ⟨dir, by simp [findProjectRootFuel, hp, hfix], Or.inr hfix⟩
      have hlt := posixDirname_progress dir hfix
      obtain ⟨r, hr, hprop⟩ := ih f (by omega) (posixDirname dir) (by omega)
      exact ⟨r, by simp [findProjectRootFuel, hp, hfix, hr], hprop⟩

/-- C9: `findProjectRoot` terminates on every input — a finite step
budget suffices, and any larger budget returns the same directory — and
the result either contains a `package.json` entry or is a filesystem
root in the sense of being its own `dirname` fixed point. -/
theorem findProjectRootTerminates (hasPkg : List Char → Bool)
    (toPath : List Char → List Char) (fromDir : List Char) :
    ∃ fuel r,
      (∀ extra,
        findProjectRoot hasPkg toPath fromDir (fuel + extra) = some r) ∧
      (hasPkg r = true ∨ posixDirname r = r) := by
  obtain ⟨r, hr, hprop⟩ := findProjectRootFuel_spec hasPkg
    (dirMeasure (if isFileUrl fromDir then toPath fromDir else fromDir))
    (if isFileUrl fromDir then toPath fromDir else fromDir) le_rfl
  exact ⟨_, r,
    fun extra => findProjectRootFuel_mono hasPkg _ _ r hr extra, hprop⟩

end Vulfram
